import Mathlib

/-!
Verification of the transition-tick adapter of svelte-native
(`src/transitions/index.ts`).

The adapter `asSvelteTransition` is a closure over three mutable fields
(`direction`, `animation`, `last_t`).  Its `tick(t, u = 1 - t)` callback is
embedded below as a pure step function from an `AdapterState` and the per-call
inputs to a new state together with the ordered list of observable effects the
call performs (property snaps, handle cancellation, handle creation, playback).
JavaScript numbers are modelled as rationals; the environment-dependent
booleans read during a tick (`animation.isPlaying`, the truthiness of
`node.nativeView.nativeViewProtected`, and whether `createAnimation` throws)
are inputs of the step.

The cubic-bezier helper module (`./bezier`) is an external collaborator of the
adapter; the adapter only composes its operations, so curves are embedded
symbolically: `CurveExpr.base` stands for the configured curve `svelteCurve`,
and `slice`/`timeReverse`/`normalize` record the calls to `partialCurveFrom`,
`reverseCurve` and `normalizeCurve`.
-/

namespace SvelteNative

/-- The source's `enum AnimationDirection` with values Unknown, In, Out. -/
inductive AnimationDirection
  | Unknown
  | In
  | Out
deriving DecidableEq, Repr

/-- Symbolic cubic-bezier curve expressions: the adapter's compositions of the
bezier module's operations.  `base` is the configured `svelteCurve`;
`slice c t0 t1` records `partialCurveFrom(c, t0, t1)`; `timeReverse` records
`reverseCurve`; `normalize` records `normalizeCurve`. -/
inductive CurveExpr
  | base
  | slice (c : CurveExpr) (t0 t1 : ℚ)
  | timeReverse (c : CurveExpr)
  | normalize (c : CurveExpr)
deriving DecidableEq, Repr

/-- The native animation request the adapter submits
(`nsAnimation : AnimationDefinition`): the spread of the target-progress
definition is summarised by `targetT`, together with the `delay`, `duration`
and `curve` fields the adapter assigns. -/
structure NsAnimationRequest where
  targetT : ℚ
  delay : ℚ
  duration : ℚ
  curve : CurveExpr
deriving DecidableEq, Repr

/-- Observable effects of one `tick` call, in program order.
`applyAt time` is `applyAnimAtTime(time)` (one batched property write of the
definition at `time`); `cancel id` is `oldanimation.cancel()`;
`create id req` is `animation = node.nativeView.createAnimation(nsAnimation)`;
`playNow` is the synchronous `animateBlock()` of the Out branch and
`deferPlay` the `setTimeout(() => animateBlock(), 0)` of the In branch. -/
inductive Effect
  | applyAt (time : ℚ)
  | cancel (id : ℕ)
  | create (id : ℕ) (req : NsAnimationRequest)
  | playNow (id : ℕ)
  | deferPlay (id : ℕ)
deriving DecidableEq, Repr

/-- The adapter closure's mutable state: `direction`, the stored native
animation handle (`animation`, modelled by an id), and `last_t`.  `nextId`
is the ghost supply of fresh handle ids for the facade. -/
structure AdapterState where
  direction : AnimationDirection
  animation : Option ℕ
  last_t : ℚ
  nextId : ℕ
deriving DecidableEq, Repr

/-- The initial closure state: `direction = Unknown`, `animation = null`, `last_t = -1`. -/
def initState : AdapterState :=
  { direction := .Unknown, animation := none, last_t := -1, nextId := 0 }

/-- Per-call inputs of `tick`: the progress `t`; the optional second argument
(`uArg = none` models a single-argument Svelte-3-style call, in which case the
default `u = 1 - t` applies); and the environment booleans read during the
call. -/
structure TickInput where
  t : ℚ
  uArg : Option ℚ
  isPlaying : Bool
  realized : Bool
  createOk : Bool
deriving DecidableEq, Repr

/-- The value of `u` inside the tick body: the explicit argument if given,
else the default `1 - t`. -/
def tickU (inp : TickInput) : ℚ :=
  inp.uArg.getD (1 - inp.t)

/-- The closure's `cancelNativeAnimation`: if a handle is stored and it `isPlaying`, null
the reference and call `cancel()` on the old handle; in every case the stored
reference ends up null. -/
def cancelNativeAnimation (s : AdapterState) (isPlaying : Bool) :
    AdapterState × List Effect :=
  match s.animation with
  | some id =>
      if isPlaying then ({ s with animation := none }, [.cancel id])
      else ({ s with animation := none }, [])
  | none => (s, [])

/-- First-frame classification (`if (direction == AnimationDirection.Unknown)`):
if `u > 0.5` the tick is classified as an intro — `applyAnimAtTime(0)`,
`direction = In`, `last_t = 0`; otherwise `direction = Out`, `last_t = t`. -/
def tickClassify (s : AdapterState) (t u : ℚ) : AdapterState × List Effect :=
  if s.direction = .Unknown then
    if u > 1/2 then
      ({ s with direction := .In, last_t := 0 }, [.applyAt 0])
    else
      ({ s with direction := .Out, last_t := t }, [])
  else (s, [])

/-- Direction-reversal detection: the two sequential `if` statements checking
`direction == In && last_t > t` and `direction == Out && last_t < t`, each of
which flips the direction, runs `cancelNativeAnimation()` and
`applyAnimAtTime(t)`; followed by the unconditional `last_t = t`. -/
def tickReverse (s : AdapterState) (t : ℚ) (isPlaying : Bool) :
    AdapterState × List Effect :=
  let step1 :=
    if s.direction = .In ∧ s.last_t > t then
      let c := cancelNativeAnimation { s with direction := .Out } isPlaying
      (c.1, c.2 ++ [Effect.applyAt t])
    else (s, [])
  let s1 := step1.1
  let step2 :=
    if s1.direction = .Out ∧ s1.last_t < t then
      let c := cancelNativeAnimation { s1 with direction := .In } isPlaying
      (c.1, c.2 ++ [Effect.applyAt t])
    else (s1, [])
  ({ step2.1 with last_t := t }, step1.2 ++ step2.2)

/-- Animation (re)creation (`if (!animation) { ... }`): compute the target
progress (1 for In, 0 otherwise); if the native view is not realized, snap to
the target definition and return; otherwise build the request (delay 0; for
Out the effective progress is `u`: curve `normalize (timeReverse (u == 1 ?
base : slice base 0 u))` and duration `u * duration`; for In curve
`normalize (t == 0 ? base : slice base t 1)` and duration `(1 - t) *
duration`), create the handle (abandoning the cycle if creation fails), and
play it synchronously for Out or on the next turn for In. -/
def tickCreate (s : AdapterState) (t u dur : ℚ) (realized createOk : Bool) :
    AdapterState × List Effect :=
  if s.animation = none then
    let target_t : ℚ := if s.direction = .In then 1 else 0
    if realized = false then
      (s, [.applyAt target_t])
    else
      let req : NsAnimationRequest :=
        if s.direction = .Out then
          { targetT := target_t, delay := 0, duration := u * dur,
            curve := .normalize (.timeReverse
              (if u = 1 then .base else .slice .base 0 u)) }
        else
          { targetT := target_t, delay := 0, duration := (1 - t) * dur,
            curve := .normalize
              (if t = 0 then .base else .slice .base t 1) }
      if createOk then
        ({ s with animation := some s.nextId, nextId := s.nextId + 1 },
         [.create s.nextId req,
          if s.direction = .Out then .playNow s.nextId
          else .deferPlay s.nextId])
      else (s, [])
  else (s, [])

/-- One `tick(t, u = 1 - t)` call: classification, reversal detection and
`last_t` update, then animation creation.  `dur` is the configured
`duration` captured by the closure. -/
def tick (s : AdapterState) (inp : TickInput) (dur : ℚ) :
    AdapterState × List Effect :=
  let u := tickU inp
  let p1 := tickClassify s inp.t u
  let p2 := tickReverse p1.1 inp.t inp.isPlaying
  let p3 := tickCreate p2.1 inp.t u dur inp.realized inp.createOk
  (p3.1, p1.2 ++ p2.2 ++ p3.2)

/-- Iterating `tick` over a list of calls. -/
def runTicks (dur : ℚ) (s : AdapterState) : List TickInput → AdapterState
  | [] => s
  | inp :: rest => runTicks dur (tick s inp dur).1 rest

/-- The adapter state at the `if (!animation)` creation check of a tick call:
after first-frame classification, reversal detection and the `last_t = t`
update, before any animation creation. -/
def midState (s : AdapterState) (inp : TickInput) : AdapterState :=
  (tickReverse (tickClassify s inp.t (tickU inp)).1 inp.t inp.isPlaying).1

/-- The object returned by `asSvelteTransition`: the configured `delay` and
`duration` are exposed to the driving framework; the `tick` behaviour is
`tick` above. -/
structure SvelteAnim where
  delay : ℚ
  duration : ℚ
deriving DecidableEq, Repr

/-- The returned record of `asSvelteTransition`: `{ delay: delay, duration:
duration }`.  The configured delay flows only here, never into `tick`. -/
def asSvelteTransition (delay duration : ℚ) : SvelteAnim :=
  { delay := delay, duration := duration }

/-! ## The built-in property mapper (`applyAnimAtTime` without override)

The mapper iterates `Object.keys(animDef)` in insertion order; a definition is
therefore embedded as an ordered list of key/value entries.  Values are either
numbers or pair objects `{x, y}`; JavaScript property access on an object
yields `none` for a missing key, and property access on `undefined` throws a
`TypeError`, which the embedding models with `Except`. -/

/-- A `Pair` value `{x, y}`. -/
structure Pair where
  x : ℚ
  y : ℚ
deriving DecidableEq, Repr

/-- A JavaScript value stored in a `NativeAnimationDefinition` entry:
a number or a pair object. -/
inductive AnimValue
  | num (v : ℚ)
  | pairObj (p : Pair)
deriving DecidableEq, Repr

/-- Property lookup on an `AnimValue` object: a pair object has exactly the
properties `x` and `y`; any other access yields `undefined` (`none`). -/
def AnimValue.getProp : AnimValue → String → Option AnimValue
  | .pairObj p, "x" => some (.num p.x)
  | .pairObj p, "y" => some (.num p.y)
  | _, _ => none

/-- JavaScript member access `v.f` where `v` may be `undefined`: reading a
property of `undefined` throws a `TypeError`; otherwise the property's value
(possibly `undefined`) is returned. -/
def jsGet (v : Option AnimValue) (f : String) : Except String (Option AnimValue) :=
  match v with
  | none => .error ("TypeError")
  | some w => .ok (w.getProp f)

/-- Reading a number out of a possibly-`undefined` value for assignment to a
numeric view property (the well-typed case in every reachable use). -/
def asNumOr (v : Option AnimValue) (dflt : ℚ) : ℚ :=
  match v with
  | some (.num q) => q
  | _ => dflt

/-- The view's mutable properties touched by the mapper: the dedicated
`scaleX/scaleY/translateX/translateY` properties and the generic
`(view.style || view)[k]` assignments. -/
structure ViewProps where
  scaleX : ℚ
  scaleY : ℚ
  translateX : ℚ
  translateY : ℚ
  style : String → Option AnimValue

/-- One iteration of the mapper's `Object.keys(animDef).forEach` body, from
the current source (`src/transitions/index.ts`, the `part_001` revision):
`case 'scale': view.scaleX = value.scale.x; view.scaleY = value.scale.y`,
`case 'translate': view.translateX = value.translate.x; view.translateY =
value.translate.y`, `default: (view.style || view)[k] = value`.  Note that
`value` is already `animDef[k]`, so the `scale`/`translate` branches
dereference a property that does not exist on the pair value. -/
def applyEntry (view : ViewProps) (k : String) (value : AnimValue) :
    Except String ViewProps :=
  match k with
  | "scale" => do
      let sv ← jsGet (some value) "scale"
      let xv ← jsGet sv ("x")
      let yv ← jsGet sv ("y")
      pure { view with scaleX := asNumOr xv view.scaleX,
                       scaleY := asNumOr yv view.scaleY }
  | "translate" => do
      let tv ← jsGet (some value) "translate"
      let xv ← jsGet tv ("x")
      let yv ← jsGet tv ("y")
      pure { view with translateX := asNumOr xv view.translateX,
                       translateY := asNumOr yv view.translateY }
  | _ =>
      pure { view with style := fun k' => if k' = k then some value
                                          else view.style k' }

/-- The corrected mapper branch bodies as in the sibling revision of the same
file (`src/src/transitions/index.ts`): `view.scaleX = value.x; view.scaleY =
value.y` and `view.translateX = value.x; view.translateY = value.y`. -/
def applyEntryFixed (view : ViewProps) (k : String) (value : AnimValue) :
    Except String ViewProps :=
  match k with
  | "scale" => do
      let xv ← jsGet (some value) "x"
      let yv ← jsGet (some value) "y"
      pure { view with scaleX := asNumOr xv view.scaleX,
                       scaleY := asNumOr yv view.scaleY }
  | "translate" => do
      let xv ← jsGet (some value) "x"
      let yv ← jsGet (some value) "y"
      pure { view with translateX := asNumOr xv view.translateX,
                       translateY := asNumOr yv view.translateY }
  | _ =>
      pure { view with style := fun k' => if k' = k then some value
                                          else view.style k' }

/-- The built-in mapper applied to a whole definition, inside one
`view._batchUpdate` scope, as in the current source. -/
def applyAnimDef (view : ViewProps) (animDef : List (String × AnimValue)) :
    Except String ViewProps :=
  animDef.foldlM (fun v kv => applyEntry v kv.1 kv.2) view

/-- The built-in mapper with the sibling revision's branch bodies. -/
def applyAnimDefFixed (view : ViewProps) (animDef : List (String × AnimValue)) :
    Except String ViewProps :=
  animDef.foldlM (fun v kv => applyEntryFixed v kv.1 kv.2) view

/-! ## The `fly` applier -/

/-- The configuration and captured baselines of `fly`: the offsets `x`, `y`
and the captured `node.nativeView.opacity`, `translateX`, `translateY`. -/
structure FlyConfig where
  x : ℚ
  y : ℚ
  opacity0 : ℚ
  translateX0 : ℚ
  translateY0 : ℚ
deriving DecidableEq, Repr

/-- The definition record produced by `fly`'s `propsAtProgress` function. -/
structure FlyDef where
  opacity : ℚ
  translate : Pair
deriving DecidableEq, Repr

/-- The `propsAtProgress` of `fly`: `t => ({ opacity: t * opacity, translate:
{ x: translateX + (1 - t) * x, y: translateY + (1 - t) * y } })`. -/
def fly (cfg : FlyConfig) (t : ℚ) : FlyDef :=
  { opacity := t * cfg.opacity0,
    translate := { x := cfg.translateX0 + (1 - t) * cfg.x,
                   y := cfg.translateY0 + (1 - t) * cfg.y } }

/-- The entry list of a `fly` definition record, in the object literal's key
insertion order (`opacity`, then `translate`). -/
def FlyDef.toEntries (d : FlyDef) : List (String × AnimValue) :=
  [("opacity", .num d.opacity), ("translate", .pairObj d.translate)]

/-- A concrete view baseline for evaluation: scale 1, translate 0, empty
style map. -/
def sampleView : ViewProps :=
  { scaleX := 1, scaleY := 1, translateX := 0, translateY := 0,
    style := fun _ => none }

/-! ## Helper lemmas -/

theorem tickCreate_fst_direction (s : AdapterState) (t u dur : ℚ) (r c : Bool) :
    (tickCreate s t u dur r c).1.direction = s.direction := by
  unfold tickCreate
  split_ifs <;> rfl

theorem tickCreate_fst_last_t (s : AdapterState) (t u dur : ℚ) (r c : Bool) :
    (tickCreate s t u dur r c).1.last_t = s.last_t := by
  unfold tickCreate
  split_ifs <;> rfl

theorem tickReverse_fst_last_t (s : AdapterState) (t : ℚ) (p : Bool) :
    (tickReverse s t p).1.last_t = t := rfl

theorem tick_fst_eq (s : AdapterState) (inp : TickInput) (dur : ℚ) :
    (tick s inp dur).1 =
      (tickCreate (midState s inp) inp.t (tickU inp) dur
        inp.realized inp.createOk).1 := rfl

theorem tick_snd_eq (s : AdapterState) (inp : TickInput) (dur : ℚ) :
    (tick s inp dur).2 =
      (tickClassify s inp.t (tickU inp)).2 ++
      (tickReverse (tickClassify s inp.t (tickU inp)).1 inp.t inp.isPlaying).2 ++
      (tickCreate (midState s inp) inp.t (tickU inp) dur
        inp.realized inp.createOk).2 := rfl

theorem tick_fst_direction (s : AdapterState) (inp : TickInput) (dur : ℚ) :
    (tick s inp dur).1.direction = (midState s inp).direction := by
  rw [tick_fst_eq]
  exact tickCreate_fst_direction _ _ _ _ _ _

theorem tick_fst_last_t (s : AdapterState) (inp : TickInput) (dur : ℚ) :
    (tick s inp dur).1.last_t = inp.t := by
  rw [tick_fst_eq, tickCreate_fst_last_t]
  exact tickReverse_fst_last_t _ _ _

theorem tickClassify_direction_ne (s : AdapterState) (t u : ℚ) :
    (tickClassify s t u).1.direction ≠ .Unknown := by
  unfold tickClassify
  split_ifs with h1 h2
  · exact fun h => nomatch h
  · exact fun h => nomatch h
  · exact h1

theorem tickReverse_direction_ne (s : AdapterState) (t : ℚ) (p : Bool)
    (h : s.direction ≠ .Unknown) : (tickReverse s t p).1.direction ≠ .Unknown := by
  obtain ⟨d, a, l, n⟩ := s
  unfold tickReverse cancelNativeAnimation
  cases a <;> split_ifs <;> simp_all <;> split_ifs <;> simp_all

theorem tick_direction_ne (s : AdapterState) (inp : TickInput) (dur : ℚ) :
    (tick s inp dur).1.direction ≠ .Unknown := by
  rw [tick_fst_direction]
  exact tickReverse_direction_ne _ _ _ (tickClassify_direction_ne _ _ _)

theorem runTicks_direction_ne (dur : ℚ) (l : List TickInput) (s : AdapterState)
    (h : s.direction ≠ .Unknown) :
    (runTicks dur s l).direction ≠ .Unknown := by
  induction l generalizing s with
  | nil => exact h
  | cons inp rest ih => exact ih _ (tick_direction_ne _ _ _)

theorem tickClassify_of_ne (s : AdapterState) (t u : ℚ)
    (h : s.direction ≠ .Unknown) : tickClassify s t u = (s, []) := by
  simp [tickClassify, h]

theorem tickReverse_in_rev (s : AdapterState) (t : ℚ) (p : Bool)
    (hdir : s.direction = .In) (hlt : t < s.last_t) :
    (tickReverse s t p).1.direction = .Out ∧
    (tickReverse s t p).1.animation = none ∧
    Effect.applyAt t ∈ (tickReverse s t p).2 ∧
    (∀ id, s.animation = some id → p = true →
      (tickReverse s t p).2 = [Effect.cancel id, Effect.applyAt t]) := by
  obtain ⟨d, a, l, n⟩ := s
  simp only at hdir hlt
  subst hdir
  cases a <;>
    simp_all [tickReverse, cancelNativeAnimation, not_lt_of_gt hlt] <;>
    cases p <;> simp_all [not_lt_of_gt hlt]

theorem tickReverse_out_rev (s : AdapterState) (t : ℚ) (p : Bool)
    (hdir : s.direction = .Out) (hlt : s.last_t < t) :
    (tickReverse s t p).1.direction = .In ∧
    (tickReverse s t p).1.animation = none ∧
    Effect.applyAt t ∈ (tickReverse s t p).2 ∧
    (∀ id, s.animation = some id → p = true →
      (tickReverse s t p).2 = [Effect.cancel id, Effect.applyAt t]) := by
  obtain ⟨d, a, l, n⟩ := s
  simp only at hdir hlt
  subst hdir
  cases a <;>
    simp_all [tickReverse, cancelNativeAnimation] <;>
    cases p <;> simp_all

theorem tickReverse_no_rev (s : AdapterState) (t : ℚ) (p : Bool)
    (h1 : ¬(s.direction = .In ∧ t < s.last_t))
    (h2 : ¬(s.direction = .Out ∧ s.last_t < t)) :
    tickReverse s t p = ({ s with last_t := t }, []) := by
  simp [tickReverse, h1, h2]

theorem create_not_mem_tickClassify (s : AdapterState) (t u : ℚ)
    (id : ℕ) (req : NsAnimationRequest) :
    Effect.create id req ∉ (tickClassify s t u).2 := by
  unfold tickClassify
  split_ifs <;> simp

theorem create_not_mem_tickReverse (s : AdapterState) (t : ℚ) (p : Bool)
    (id : ℕ) (req : NsAnimationRequest) :
    Effect.create id req ∉ (tickReverse s t p).2 := by
  obtain ⟨d, a, l, n⟩ := s
  unfold tickReverse cancelNativeAnimation
  cases a <;> split_ifs <;> simp_all <;> split_ifs <;> simp_all

theorem create_mem_tickCreate (s : AdapterState) (t u dur : ℚ) (r c : Bool)
    (id : ℕ) (req : NsAnimationRequest)
    (h : Effect.create id req ∈ (tickCreate s t u dur r c).2) :
    s.animation = none ∧ r = true ∧ c = true ∧ id = s.nextId ∧
    req = (if s.direction = .Out then
            { targetT := 0, delay := 0, duration := u * dur,
              curve := .normalize (.timeReverse
                (if u = 1 then .base else .slice .base 0 u)) }
          else
            { targetT := if s.direction = .In then 1 else 0, delay := 0,
              duration := (1 - t) * dur,
              curve := .normalize
                (if t = 0 then .base else .slice .base t 1) }) := by
  unfold tickCreate at h
  split_ifs at h <;> simp_all

theorem create_mem_tick (s : AdapterState) (inp : TickInput) (dur : ℚ)
    (id : ℕ) (req : NsAnimationRequest)
    (h : Effect.create id req ∈ (tick s inp dur).2) :
    Effect.create id req ∈
      (tickCreate (midState s inp) inp.t (tickU inp) dur
        inp.realized inp.createOk).2 := by
  rw [tick_snd_eq] at h
  rcases List.mem_append.mp h with h' | h'
  · rcases List.mem_append.mp h' with h'' | h''
    · exact absurd h'' (create_not_mem_tickClassify _ _ _ _ _)
    · exact absurd h'' (create_not_mem_tickReverse _ _ _ _ _)
  · exact h'

theorem tickReverse_in_rev_eq (s : AdapterState) (t : ℚ) (id : ℕ)
    (hd : s.direction = .In) (hl : t < s.last_t) (hid : s.animation = some id) :
    tickReverse s t true =
      ({ s with direction := .Out, animation := none, last_t := t },
       [Effect.cancel id, Effect.applyAt t]) := by
  obtain ⟨d, a, l, n⟩ := s
  simp only at hd hl hid
  subst hd
  subst hid
  simp_all [tickReverse, cancelNativeAnimation, not_lt_of_gt hl]

theorem midState_no_rev (s : AdapterState) (inp : TickInput)
    (hne : s.direction ≠ .Unknown)
    (h1 : ¬(s.direction = .In ∧ inp.t < s.last_t))
    (h2 : ¬(s.direction = .Out ∧ s.last_t < inp.t)) :
    midState s inp = { s with last_t := inp.t } := by
  unfold midState
  rw [tickClassify_of_ne _ _ _ hne]
  rw [tickReverse_no_rev _ _ _ h1 h2]

theorem tickCreate_eval (s : AdapterState) (t u dur : ℚ)
    (ha : s.animation = none) :
    tickCreate s t u dur true true =
      ({ s with animation := some s.nextId, nextId := s.nextId + 1 },
       [Effect.create s.nextId
          (if s.direction = .Out then
            { targetT := 0, delay := 0, duration := u * dur,
              curve := .normalize (.timeReverse
                (if u = 1 then .base else .slice .base 0 u)) }
           else
            { targetT := if s.direction = .In then 1 else 0, delay := 0,
              duration := (1 - t) * dur,
              curve := .normalize
                (if t = 0 then .base else .slice .base t 1) }),
        if s.direction = .Out then Effect.playNow s.nextId
        else Effect.deferPlay s.nextId]) := by
  unfold tickCreate
  rw [if_pos ha]
  split_ifs with h1 h2 <;> simp_all

theorem tick_eval_no_rev (s : AdapterState) (inp : TickInput) (dur : ℚ)
    (hne : s.direction ≠ .Unknown)
    (h1 : ¬(s.direction = .In ∧ inp.t < s.last_t))
    (h2 : ¬(s.direction = .Out ∧ s.last_t < inp.t))
    (ha : s.animation = none) (hr : inp.realized = true)
    (hco : inp.createOk = true) :
    tick s inp dur =
      ({ s with animation := some s.nextId, last_t := inp.t, nextId := s.nextId + 1 },
       [Effect.create s.nextId
          (if s.direction = .Out then
            { targetT := 0, delay := 0, duration := tickU inp * dur,
              curve := .normalize (.timeReverse
                (if tickU inp = 1 then .base
                 else .slice .base 0 (tickU inp))) }
           else
            { targetT := if s.direction = .In then 1 else 0, delay := 0,
              duration := (1 - inp.t) * dur,
              curve := .normalize
                (if inp.t = 0 then .base else .slice .base inp.t 1) }),
        if s.direction = .Out then Effect.playNow s.nextId
        else Effect.deferPlay s.nextId]) := by
  have hcl := tickClassify_of_ne s inp.t (tickU inp) hne
  have hrev := tickReverse_no_rev s inp.t inp.isPlaying h1 h2
  have hmid : midState s inp = { s with last_t := inp.t } :=
    midState_no_rev s inp hne h1 h2
  have hcr := tickCreate_eval ({ s with last_t := inp.t }) inp.t (tickU inp)
    dur (show ({ s with last_t := inp.t } : AdapterState).animation = none
      from ha)
  apply Prod.ext
  · rw [tick_fst_eq, hmid, hr, hco, hcr]
  · rw [tick_snd_eq, hcl, hmid, hr, hco, hcr]
    simp [hrev]

theorem tick_eval_in_rev (s : AdapterState) (inp : TickInput) (dur : ℚ)
    (id : ℕ) (hd : s.direction = .In) (hl : inp.t < s.last_t)
    (hid : s.animation = some id) (hp : inp.isPlaying = true)
    (hr : inp.realized = true) (hco : inp.createOk = true) :
    tick s inp dur =
      ({ s with direction := .Out, animation := some s.nextId, last_t := inp.t, nextId := s.nextId + 1 },
       [Effect.cancel id, Effect.applyAt inp.t,
        Effect.create s.nextId
          { targetT := 0, delay := 0, duration := tickU inp * dur,
            curve := .normalize (.timeReverse
              (if tickU inp = 1 then .base
               else .slice .base 0 (tickU inp))) },
        Effect.playNow s.nextId]) := by
  have hne : s.direction ≠ .Unknown := by rw [hd]; exact fun h => (nomatch h)
  have hcl := tickClassify_of_ne s inp.t (tickU inp) hne
  have hrev := tickReverse_in_rev_eq s inp.t id hd hl hid
  have hmid : midState s inp
      = { s with direction := .Out, animation := none, last_t := inp.t } := by
    unfold midState
    rw [hcl, hp, hrev]
  have hcr := tickCreate_eval
    ({ s with direction := .Out, animation := none, last_t := inp.t })
    inp.t (tickU inp) dur rfl
  apply Prod.ext
  · rw [tick_fst_eq, hmid, hr, hco, hcr]
  · rw [tick_snd_eq, hcl, hp, hmid, hr, hco, hcr]
    simp [hrev]

/-! ## Claim theorems -/

/-- Claim C1: on the first tick call (state `Unknown`, with a progress value
`t ≥ 0`) the adapter classifies the transition as entering exactly when the
visibility-progress value `u` indicates the element starts invisible
(`u > 0.5`): the state becomes `In` and the very first effect of the call
snaps the element's properties to the progress-0 definition; otherwise the
state becomes `Out`. -/
theorem first_tick_classification (s : AdapterState) (inp : TickInput)
    (dur : ℚ) (hU : s.direction = .Unknown) (ht : 0 ≤ inp.t) :
    ((tick s inp dur).1.direction = .In ↔ tickU inp > 1/2) ∧
    (tickU inp > 1/2 → (tick s inp dur).2.head? = some (Effect.applyAt 0)) ∧
    (¬ tickU inp > 1/2 → (tick s inp dur).1.direction = .Out) := by
  have hdir := tick_fst_direction s inp dur
  by_cases hu : tickU inp > 1/2
  · have hcl : tickClassify s inp.t (tickU inp)
        = ({ s with direction := .In, last_t := 0 }, [Effect.applyAt 0]) := by
      unfold tickClassify
      rw [if_pos hU, if_pos hu]
    have hmid : midState s inp = { s with direction := .In, last_t := inp.t } := by
      unfold midState
      rw [hcl]
      rw [tickReverse_no_rev _ _ _ (by simpa using not_lt.mpr ht) (by simp)]
    constructor
    · rw [hdir, hmid]
      simpa using hu
    refine ⟨fun _ => ?_, fun hn => absurd hu hn⟩
    rw [tick_snd_eq, hcl]
    rfl
  · have hcl : tickClassify s inp.t (tickU inp)
        = ({ s with direction := .Out, last_t := inp.t }, []) := by
      unfold tickClassify
      rw [if_pos hU, if_neg hu]
    have hmid : midState s inp = { s with direction := .Out, last_t := inp.t } := by
      unfold midState
      rw [hcl]
      rw [tickReverse_no_rev _ _ _ (by simp) (by simp)]
    rw [hdir, hmid]
    refine ⟨?_, fun hg => absurd hg hu, fun _ => rfl⟩
    have hproj :
        ({ s with direction := AnimationDirection.Out, last_t := inp.t }
          : AdapterState).direction = AnimationDirection.Out := rfl
    rw [hproj]
    exact ⟨fun h => (nomatch h), fun h => absurd h hu⟩

/-- Claim C3: on every tick after the first, if the state is `In` and the new
`t` is below `last_t`, or the state is `Out` and the new `t` is above
`last_t`, the adapter flips the direction, cancels the live (playing) native
animation handle, and re-applies the property definition at progress `t`
within the same call; `last_t` is set to `t` unconditionally on every call. -/
theorem reversal_detection (s : AdapterState) (inp : TickInput) (dur : ℚ) :
    (tick s inp dur).1.last_t = inp.t ∧
    (s.direction = .In ∧ inp.t < s.last_t →
      (tick s inp dur).1.direction = .Out ∧
      Effect.applyAt inp.t ∈ (tick s inp dur).2 ∧
      (∀ id, s.animation = some id → inp.isPlaying = true →
        Effect.cancel id ∈ (tick s inp dur).2)) ∧
    (s.direction = .Out ∧ s.last_t < inp.t →
      (tick s inp dur).1.direction = .In ∧
      Effect.applyAt inp.t ∈ (tick s inp dur).2 ∧
      (∀ id, s.animation = some id → inp.isPlaying = true →
        Effect.cancel id ∈ (tick s inp dur).2)) := by
  refine ⟨tick_fst_last_t s inp dur, ?_, ?_⟩
  · rintro ⟨hd, hl⟩
    have hne : s.direction ≠ .Unknown := by rw [hd]; exact fun h => nomatch h
    have hcl := tickClassify_of_ne s inp.t (tickU inp) hne
    have hrev := tickReverse_in_rev s inp.t inp.isPlaying hd hl
    have hmid : midState s inp = (tickReverse s inp.t inp.isPlaying).1 := by
      unfold midState; rw [hcl]
    refine ⟨?_, ?_, ?_⟩
    · rw [tick_fst_direction, hmid]; exact hrev.1
    · rw [tick_snd_eq, hcl]
      exact List.mem_append_left _ (List.mem_append_right _ hrev.2.2.1)
    · intro id ha hp
      rw [tick_snd_eq, hcl]
      refine List.mem_append_left _ (List.mem_append_right _ ?_)
      rw [hrev.2.2.2 id ha hp]
      exact List.mem_cons_self _ _
  · rintro ⟨hd, hl⟩
    have hne : s.direction ≠ .Unknown := by rw [hd]; exact fun h => nomatch h
    have hcl := tickClassify_of_ne s inp.t (tickU inp) hne
    have hrev := tickReverse_out_rev s inp.t inp.isPlaying hd hl
    have hmid : midState s inp = (tickReverse s inp.t inp.isPlaying).1 := by
      unfold midState; rw [hcl]
    refine ⟨?_, ?_, ?_⟩
    · rw [tick_fst_direction, hmid]; exact hrev.1
    · rw [tick_snd_eq, hcl]
      exact List.mem_append_left _ (List.mem_append_right _ hrev.2.2.1)
    · intro id ha hp
      rw [tick_snd_eq, hcl]
      refine List.mem_append_left _ (List.mem_append_right _ ?_)
      rw [hrev.2.2.2 id ha hp]
      exact List.mem_cons_self _ _

/-- Claim C6: the direction is `Unknown` only before the first tick: the
initial state is `Unknown`, a tick from any state leaves the direction `In`
or `Out`, and any nonempty tick sequence from the initial state ends with a
direction that is not `Unknown`. -/
theorem direction_state_machine :
    initState.direction = .Unknown ∧
    (∀ s inp dur, (tick s inp dur).1.direction ≠ .Unknown) ∧
    (∀ dur inps, inps ≠ [] →
      (runTicks dur initState inps).direction ≠ .Unknown) := by
  refine ⟨rfl, fun s inp dur => tick_direction_ne s inp dur, ?_⟩
  intro dur inps h
  cases inps with
  | nil => exact absurd rfl h
  | cons inp rest =>
      exact runTicks_direction_ne dur rest _ (tick_direction_ne _ _ _)

/-- Claim C10: calling the tick function with only its first argument behaves
identically to calling it with the complementary second argument `1 - t`. -/
theorem tick_default_u (s : AdapterState) (t dur : ℚ) (p r c : Bool) :
    tick s { t := t, uArg := none, isPlaying := p, realized := r,
             createOk := c } dur =
    tick s { t := t, uArg := some (1 - t), isPlaying := p, realized := r,
             createOk := c } dur := rfl

/-- Claim C2: whenever a tick call creates a native animation while the
direction at the creation check is `Out`, the request's curve slices by the
visibility progress `u` — the full configured curve if `u = 1`, otherwise the
sub-curve over `[0, u]` — then time-reverses and normalizes it, and the
requested duration is `u` times the configured duration. -/
theorem out_creation_uses_u (s : AdapterState) (inp : TickInput) (dur : ℚ)
    (id : ℕ) (req : NsAnimationRequest)
    (hc : Effect.create id req ∈ (tick s inp dur).2)
    (hdir : (midState s inp).direction = .Out) :
    req.curve = .normalize (.timeReverse
      (if tickU inp = 1 then .base else .slice .base 0 (tickU inp))) ∧
    req.duration = tickU inp * dur := by
  have h := create_mem_tickCreate _ _ _ _ _ _ _ _
    (create_mem_tick s inp dur id req hc)
  rw [if_pos hdir] at h
  rw [h.2.2.2.2]
  exact ⟨rfl, rfl⟩

/-- Claim C4: whenever a tick call creates a native animation while the
direction at the creation check is `In`, the request's curve is the full
configured curve if `t = 0` and otherwise the normalized sub-curve over
`[t, 1]`, the requested duration is `(1 - t)` times the configured duration,
and the request carries zero delay. -/
theorem in_creation_uses_t (s : AdapterState) (inp : TickInput) (dur : ℚ)
    (id : ℕ) (req : NsAnimationRequest)
    (hc : Effect.create id req ∈ (tick s inp dur).2)
    (hdir : (midState s inp).direction = .In) :
    req.curve = .normalize
      (if inp.t = 0 then .base else .slice .base inp.t 1) ∧
    req.duration = (1 - inp.t) * dur ∧
    req.delay = 0 := by
  have h := create_mem_tickCreate _ _ _ _ _ _ _ _
    (create_mem_tick s inp dur id req hc)
  have hne : ¬ (midState s inp).direction = .Out := by
    rw [hdir]; exact fun hh => (nomatch hh)
  rw [if_neg hne] at h
  rw [h.2.2.2.2]
  exact ⟨rfl, rfl, rfl⟩

/-- Claim C5: at most one live handle is managed by the adapter: a native
animation is created only when the stored handle reference is empty at the
creation check, and on a direction flip the stored handle reference is
cleared (the handle being cancelled when it is playing, with the cancel
effect preceding any creation in the same call) before any new handle is
created. -/
theorem single_live_handle (s : AdapterState) (inp : TickInput) (dur : ℚ) :
    (∀ id req, Effect.create id req ∈ (tick s inp dur).2 →
      (midState s inp).animation = none) ∧
    (∀ hid, ((s.direction = .In ∧ inp.t < s.last_t) ∨
             (s.direction = .Out ∧ s.last_t < inp.t)) →
      s.animation = some hid →
      (midState s inp).animation = none ∧
      (inp.isPlaying = true →
        Effect.cancel hid ∈ (tick s inp dur).2 ∧
        (∀ j req, Effect.create j req ∈ (tick s inp dur).2 →
          List.Sublist [Effect.cancel hid, Effect.create j req]
            ((tick s inp dur).2)))) := by
  constructor
  · intro id req hc
    exact (create_mem_tickCreate _ _ _ _ _ _ _ _
      (create_mem_tick s inp dur id req hc)).1
  · intro hid hrevc ha
    have hne : s.direction ≠ .Unknown := by
      rcases hrevc with ⟨hd, _⟩ | ⟨hd, _⟩ <;> rw [hd] <;>
        exact fun hh => (nomatch hh)
    have hcl := tickClassify_of_ne s inp.t (tickU inp) hne
    have hmid : midState s inp = (tickReverse s inp.t inp.isPlaying).1 := by
      unfold midState; rw [hcl]
    have hrev :
        (tickReverse s inp.t inp.isPlaying).1.animation = none ∧
        (inp.isPlaying = true →
          (tickReverse s inp.t inp.isPlaying).2 =
            [Effect.cancel hid, Effect.applyAt inp.t]) := by
      rcases hrevc with ⟨hd, hl⟩ | ⟨hd, hl⟩
      · have h := tickReverse_in_rev s inp.t inp.isPlaying hd hl
        exact ⟨h.2.1, fun hp => h.2.2.2 hid ha hp⟩
      · have h := tickReverse_out_rev s inp.t inp.isPlaying hd hl
        exact ⟨h.2.1, fun hp => h.2.2.2 hid ha hp⟩
    refine ⟨by rw [hmid]; exact hrev.1, ?_⟩
    intro hp
    have he2 := hrev.2 hp
    have hsnd : (tick s inp dur).2 =
        (tickReverse s inp.t inp.isPlaying).2 ++
        (tickCreate (midState s inp) inp.t (tickU inp) dur
          inp.realized inp.createOk).2 := by
      rw [tick_snd_eq, hcl]
      rfl
    constructor
    · rw [hsnd, he2]
      exact List.mem_append_left _ (List.mem_cons_self _ _)
    · intro j req hcj
      have hj := create_mem_tick s inp dur j req hcj
      rw [hsnd, he2]
      have h1 : [Effect.cancel hid].Sublist
          [Effect.cancel hid, Effect.applyAt inp.t] := by simp
      have h2 : [Effect.create j req].Sublist
          ((tickCreate (midState s inp) inp.t (tickU inp) dur
            inp.realized inp.createOk).2) :=
        List.singleton_sublist.mpr hj
      exact List.Sublist.append h1 h2

/-- Claim C8: when the creation check is reached with no stored handle but
the native view is not realized, the adapter snaps the properties to the
endpoint definition (progress 1 for `In`, 0 otherwise), creates no handle,
and leaves the stored reference empty. -/
theorem unrealized_snap (s : AdapterState) (inp : TickInput) (dur : ℚ)
    (hanim : (midState s inp).animation = none)
    (hreal : inp.realized = false) :
    tickCreate (midState s inp) inp.t (tickU inp) dur
        inp.realized inp.createOk
      = (midState s inp,
         [Effect.applyAt
           (if (midState s inp).direction = .In then 1 else 0)]) ∧
    (∀ id req, Effect.create id req ∉ (tick s inp dur).2) ∧
    (tick s inp dur).1.animation = none := by
  have h1 : tickCreate (midState s inp) inp.t (tickU inp) dur
      inp.realized inp.createOk
      = (midState s inp,
         [Effect.applyAt
           (if (midState s inp).direction = .In then 1 else 0)]) := by
    unfold tickCreate
    rw [if_pos hanim, hreal, if_pos rfl]
  refine ⟨h1, ?_, ?_⟩
  · intro id req hc
    have := create_mem_tick s inp dur id req hc
    rw [h1] at this
    simp at this
  · rw [tick_fst_eq, h1]
    exact hanim

/-- Claim C9: the `fly` applier's progress function returns opacity
`t × baseline opacity` and translate
`(baseline translateX + (1 - t) × x, baseline translateY + (1 - t) × y)`;
with `x = 100`, `y = 0` and baseline `translateX = 0`, at `t = 1/2` the
returned `translate.x` is `50`. -/
theorem fly_props (cfg : FlyConfig) (t : ℚ) :
    (fly cfg t).opacity = t * cfg.opacity0 ∧
    (fly cfg t).translate.x = cfg.translateX0 + (1 - t) * cfg.x ∧
    (fly cfg t).translate.y = cfg.translateY0 + (1 - t) * cfg.y ∧
    (fly { x := 100, y := 0, opacity0 := 1, translateX0 := 0,
           translateY0 := 0 } (1/2)).translate.x = 50 :=
  ⟨rfl, rfl, rfl, by norm_num [fly]⟩

/-- Claim C7 (evaluation of the code at the failing input): the built-in
mapper of the current source throws a `TypeError` on any definition carrying
a `translate` or `scale` entry, because it dereferences `value.translate` /
`value.scale` on the pair value itself; the sibling revision's mapper
(`value.x` / `value.y`) sets the view properties as the claim states, e.g.
`translateX = 50` for the `fly` definition at progress `1/2`. -/
theorem mapper_translate_scale_type_error :
    applyAnimDef sampleView
      ((fly { x := 100, y := 0, opacity0 := 1, translateX0 := 0,
              translateY0 := 0 } (1/2)).toEntries) = .error ("TypeError") ∧
    applyAnimDef sampleView [("scale", .pairObj { x := 2, y := 3 })]
      = .error ("TypeError") ∧
    ((applyAnimDefFixed sampleView
      ((fly { x := 100, y := 0, opacity0 := 1, translateX0 := 0,
              translateY0 := 0 } (1/2)).toEntries)).toOption.map
        (fun v => (v.translateX, v.translateY))) = some (50, 0) :=
  ⟨rfl, rfl, by
    simp [applyAnimDefFixed, applyEntryFixed, fly, FlyDef.toEntries, jsGet,
      AnimValue.getProp, asNumOr, sampleView, List.foldlM, Except.bind,
      Except.toOption, Except.map, Bind.bind, pure, Except.pure, Pure.pure]
    norm_num⟩

/-! ## Witnesses -/

/-- Witness for C1: a first tick `(t = 0, u = 1)` is classified `In` and
snaps to the progress-0 definition first. -/
theorem first_tick_classification_witness :
    (tick initState ⟨0, some 1, false, true, true⟩ 300).1.direction = .In ∧
    (tick initState ⟨0, some 1, false, true, true⟩ 300).2.head?
      = some (Effect.applyAt 0) := by
  have h := first_tick_classification initState
    ⟨0, some 1, false, true, true⟩ 300 rfl (by norm_num)
  exact ⟨h.1.mpr (by norm_num [tickU]), h.2.1 (by norm_num [tickU])⟩

/-- Witness for C2: an Out-direction creation at `t = 1/2`, `u = 3/4`
(so `u ≠ 1 - t`) slices `[0, 3/4]` and requests duration `3/4 × 300 = 225`,
not `1/2 × 300`. -/
theorem out_creation_uses_u_witness :
    ({ targetT := 0, delay := 0, duration := 225, curve := .normalize (.timeReverse (.slice .base 0 (3/4))) } : NsAnimationRequest).curve
      = .normalize (.timeReverse
          (if tickU ⟨1/2, some (3/4), false, true, true⟩ = 1 then .base
           else .slice .base 0 (tickU ⟨1/2, some (3/4), false, true, true⟩))) ∧
    ({ targetT := 0, delay := 0, duration := 225, curve := .normalize (.timeReverse (.slice .base 0 (3/4))) } : NsAnimationRequest).duration
      = tickU ⟨1/2, some (3/4), false, true, true⟩ * 300 :=
  out_creation_uses_u ⟨.Out, none, 1, 0⟩ ⟨1/2, some (3/4), false, true, true⟩
    300 0
    { targetT := 0, delay := 0, duration := 225, curve := .normalize (.timeReverse (.slice .base 0 (3/4))) }
    (by rw [tick_eval_no_rev ⟨.Out, none, 1, 0⟩
          ⟨1/2, some (3/4), false, true, true⟩ 300 (by simp) (by simp)
          (by norm_num) rfl rfl rfl]
        norm_num [tickU])
    (by rw [midState_no_rev ⟨.Out, none, 1, 0⟩
          ⟨1/2, some (3/4), false, true, true⟩ (by simp) (by simp)
          (by norm_num)])

/-- Witness for C3: a tick `t = 1/10` after `last_t = 3/10` in state `In`
with a playing handle 7 flips to `Out`, cancels handle 7, re-applies at
`1/10`, and sets `last_t` to `1/10`. -/
theorem reversal_detection_witness :
    (tick ⟨.In, some 7, 3/10, 8⟩
      ⟨1/10, some (9/10), true, true, true⟩ 300).1.last_t = 1/10 ∧
    (tick ⟨.In, some 7, 3/10, 8⟩
      ⟨1/10, some (9/10), true, true, true⟩ 300).1.direction = .Out ∧
    Effect.applyAt (1/10) ∈
      (tick ⟨.In, some 7, 3/10, 8⟩
        ⟨1/10, some (9/10), true, true, true⟩ 300).2 ∧
    Effect.cancel 7 ∈
      (tick ⟨.In, some 7, 3/10, 8⟩
        ⟨1/10, some (9/10), true, true, true⟩ 300).2 := by
  have h := reversal_detection ⟨.In, some 7, 3/10, 8⟩
    ⟨1/10, some (9/10), true, true, true⟩ 300
  have h2 := h.2.1 ⟨rfl, by norm_num⟩
  exact ⟨h.1, h2.1, h2.2.1, h2.2.2 7 rfl rfl⟩

/-- Witness for C4: an In-direction creation at `t = 3/10` slices
`[3/10, 1]`, requests duration `(1 - 3/10) × 300 = 210`, and carries zero
delay. -/
theorem in_creation_uses_t_witness :
    ({ targetT := 1, delay := 0, duration := 210, curve := .normalize (.slice .base (3/10) 1) } : NsAnimationRequest).curve
      = .normalize
          (if (⟨3/10, some (7/10), false, true, true⟩ : TickInput).t = 0
           then .base
           else .slice .base
             (⟨3/10, some (7/10), false, true, true⟩ : TickInput).t 1) ∧
    ({ targetT := 1, delay := 0, duration := 210, curve := .normalize (.slice .base (3/10) 1) } : NsAnimationRequest).duration
      = (1 - (⟨3/10, some (7/10), false, true, true⟩ : TickInput).t) * 300 ∧
    ({ targetT := 1, delay := 0, duration := 210, curve := .normalize (.slice .base (3/10) 1) } : NsAnimationRequest).delay = 0 :=
  in_creation_uses_t ⟨.In, none, 0, 0⟩ ⟨3/10, some (7/10), false, true, true⟩
    300 0
    { targetT := 1, delay := 0, duration := 210, curve := .normalize (.slice .base (3/10) 1) }
    (by rw [tick_eval_no_rev ⟨.In, none, 0, 0⟩
          ⟨3/10, some (7/10), false, true, true⟩ 300 (by simp) (by norm_num)
          (by simp) rfl rfl rfl]
        norm_num [tickU]
        simp)
    (by rw [midState_no_rev ⟨.In, none, 0, 0⟩
          ⟨3/10, some (7/10), false, true, true⟩ (by simp) (by norm_num)
          (by simp)])

/-- Witness for C5: in the C3 reversal scenario the stored reference is
cleared, handle 7's cancellation is emitted, and it precedes the creation of
the replacement handle 8. -/
theorem single_live_handle_witness :
    (midState ⟨.In, some 7, 3/10, 8⟩
      ⟨1/10, some (9/10), true, true, true⟩).animation = none ∧
    Effect.cancel 7 ∈
      (tick ⟨.In, some 7, 3/10, 8⟩
        ⟨1/10, some (9/10), true, true, true⟩ 300).2 ∧
    List.Sublist
      [Effect.cancel 7,
       Effect.create 8 { targetT := 0, delay := 0, duration := 270, curve := .normalize (.timeReverse (.slice .base 0 (9/10))) }]
      ((tick ⟨.In, some 7, 3/10, 8⟩
        ⟨1/10, some (9/10), true, true, true⟩ 300).2) := by
  have h := single_live_handle ⟨.In, some 7, 3/10, 8⟩
    ⟨1/10, some (9/10), true, true, true⟩ 300
  have h2 := h.2 7 (Or.inl ⟨rfl, by norm_num⟩) rfl
  exact ⟨h2.1, (h2.2 rfl).1,
         (h2.2 rfl).2 8
           { targetT := 0, delay := 0, duration := 270, curve := .normalize (.timeReverse (.slice .base 0 (9/10))) }
           (by rw [tick_eval_in_rev ⟨.In, some 7, 3/10, 8⟩
                 ⟨1/10, some (9/10), true, true, true⟩ 300 7 rfl
                 (by norm_num) rfl rfl rfl rfl]
               norm_num [tickU])⟩

/-- Witness for C6: after the single tick `(0, 1)` from the initial state the
direction is no longer `Unknown`. -/
theorem direction_state_machine_witness :
    (runTicks 300 initState
      [⟨0, some 1, false, true, true⟩]).direction ≠ .Unknown :=
  direction_state_machine.2.2 300 [⟨0, some 1, false, true, true⟩] (by simp)

/-- Witness for C8: a tick in state `In` with no stored handle and an
unrealized native view only snaps to the progress-1 definition and creates
nothing. -/
theorem unrealized_snap_witness :
    tickCreate
      (midState ⟨.In, none, 0, 0⟩ ⟨1/2, some (1/2), false, false, true⟩)
      (⟨1/2, some (1/2), false, false, true⟩ : TickInput).t
      (tickU ⟨1/2, some (1/2), false, false, true⟩) 300
      (⟨1/2, some (1/2), false, false, true⟩ : TickInput).realized
      (⟨1/2, some (1/2), false, false, true⟩ : TickInput).createOk
      = (midState ⟨.In, none, 0, 0⟩ ⟨1/2, some (1/2), false, false, true⟩,
         [Effect.applyAt
           (if (midState ⟨.In, none, 0, 0⟩
              ⟨1/2, some (1/2), false, false, true⟩).direction = .In
            then 1 else 0)]) ∧
    (tick ⟨.In, none, 0, 0⟩
      ⟨1/2, some (1/2), false, false, true⟩ 300).1.animation = none ∧
    Effect.create 0 { targetT := 1, delay := 0, duration := 150, curve := .normalize (.slice .base (1/2) 1) } ∉
      (tick ⟨.In, none, 0, 0⟩
        ⟨1/2, some (1/2), false, false, true⟩ 300).2 := by
  have hanim : (midState ⟨.In, none, 0, 0⟩
      ⟨1/2, some (1/2), false, false, true⟩).animation = none := by
    rw [midState_no_rev ⟨.In, none, 0, 0⟩
      ⟨1/2, some (1/2), false, false, true⟩ (by simp) (by norm_num) (by simp)]
  have h := unrealized_snap ⟨.In, none, 0, 0⟩
    ⟨1/2, some (1/2), false, false, true⟩ 300 hanim rfl
  exact ⟨h.1, h.2.2, h.2.1 0 _⟩

end SvelteNative
